import Mathlib

/-! Verification of the toysql bytecode compiler, virtual machine and B+Tree.

Shallow embedding of the relevant parts of the `toysql` sources:

* `toysql/vmV1.py`   — the `PeekIterator` cursor wrapper and the `VM.execute`
  fetch-decode-execute loop, embedded as a step function over an explicit
  machine state;
* `toysql/compiler.py` — the `Opcode`/`Instruction`/`Program` data model,
  `Program.resolve_refs`, `Compiler.get_table_root_page_number`,
  `Compiler.get_column_indexes`, and the three code-generation branches of
  `Compiler.compile` (select / insert / create);
* `toysql/lexer.py`  — the `Kind` token-kind enumeration;
* `toysql/btree.py`  — `BPlusTree.add` and `BPlusTree._split`.

Python exceptions are modelled with an explicit error type and `Except`;
Python `dict`s are modelled as association lists; Python `list.index` /
`list[...]` indexing (including the raising behaviour) is modelled
explicitly.  Parts of the repository that the sources import but that are
not present under `src/` (`page.py`, `pager.py`, `record.py`, the `BTree`
class used by the VM) are modelled from the spec and are marked as such in
their doc comments.
-/

/-- The Python exceptions that the embedded code can raise. -/
inductive PyErr where
  /-- Python `KeyError`: a `dict` lookup on a missing key (the VM register file and
  cursor table are dicts). -/
  | keyError : PyErr
  /-- Python `AttributeError`: attribute access on an object that lacks it (e.g.
  `Kind.integer` when the `Kind` enum has no member `integer`, or
  `None.row_id`). -/
  | attributeError : PyErr
  /-- Python `AssertionError`: a failed `assert` statement. -/
  | assertionError : PyErr
  /-- Python `TypeError`: e.g. using an `Instruction` object where an `int` is
  required, or `int(None)`. -/
  | typeError : PyErr
  /-- Python `IndexError`: a list index out of range. -/
  | indexError : PyErr
  /-- Python `ValueError`, with the optional message. -/
  | valueError : Option String → PyErr
  /-- A bare `raise Exception(msg)`, with the optional message. -/
  | exception : Option String → PyErr
  /-- Python `TableFoundException(msg)` raised by the compiler when a table name
  does not resolve. -/
  | tableFound : String → PyErr
deriving DecidableEq, Repr

/-! ## PeekIterator (`toysql/vmV1.py`, lines 8–38)

`PeekIterator` wraps the iterator of a tree scan with a `deque` of peeked
elements.  The underlying scan is finite, so we model the remaining part of
the iterator as a `List α`; the `peeked` deque is a `List (Option α)`
because `safe_next` pushes `None` into it once the scan is exhausted. -/

/-- The state of a `PeekIterator`: the `peeked` deque and the elements the
underlying iterator has not produced yet. -/
structure PeekState (α : Type) where
  peeked : List (Option α)
  remaining : List α
deriving DecidableEq, Repr

namespace PeekState

/-- Model of `safe_next`: advance the underlying iterator, returning `None` instead
of raising `StopIteration` when it is exhausted. -/
def safeNext {α : Type} : List α → Option α × List α
  | [] => (none, [])
  | a :: r => (some a, r)

/-- Model of `__next__`: pop the left end of the `peeked` deque if it is nonempty,
otherwise fall back to `safe_next`. -/
def next {α : Type} (s : PeekState α) : Option α × PeekState α :=
  match s.peeked with
  | v :: p => (v, ⟨p, s.remaining⟩)
  | [] =>
    let (v, r) := safeNext s.remaining
    (v, ⟨[], r⟩)

/-- The body of `peek`: `while len(self.peeked) <= ahead: self.peeked.append(self.safe_next())`. -/
def fill {α : Type} (p : List (Option α)) (r : List α) (k : Nat) :
    List (Option α) × List α :=
  if p.length ≤ k then
    match r with
    | [] => fill (p ++ [none]) [] k
    | a :: r' => fill (p ++ [some a]) r' k
  else
    (p, r)
termination_by k + 1 - p.length
decreasing_by
  all_goals simp only [List.length_append, List.length_cons, List.length_nil]
  all_goals omega

/-- Model of `peek(ahead)`: fill the deque up to index `ahead` and return the element
there, together with the mutated iterator state. -/
def peek {α : Type} (s : PeekState α) (k : Nat) : Option α × PeekState α :=
  let (p, r) := fill s.peeked s.remaining k
  (p.getD k none, ⟨p, r⟩)

/-- The value returned by the `(n+1)`-th call to `__next__` starting from
state `s` (so `nthNext s 0` is the first `next`). -/
def nthNext {α : Type} (s : PeekState α) : Nat → Option α
  | 0 => (next s).1
  | n + 1 => nthNext (next s).2 n

end PeekState

/-! ## Bytecode data model (`toysql/compiler.py`, lines 22–302) -/

/-- The opcode enumeration of `toysql/compiler.py` (`class Opcode(Enum)`). -/
inductive Opcode where
  | Init | OpenRead | CreateBtree | CreateTable | OpenWrite | SoftNull
  | Null | String | SCopy | IsNull | Insert | Integer | Rewind | Rowid
  | Key | Column | ResultRow | Next | NotNull | SeekRowid | NewRowid
  | Noop | NotExists | MakeRecord | MustBeInt | Close | Halt | Transaction
  | Goto
deriving DecidableEq, Repr

/-- An instruction all of whose operands are plain values.  This is the
shape of every instruction a forward reference ever points at in
`Compiler.compile` (the `close = Instruction(Opcode.Close, p1=0)` object). -/
structure PlainInstr where
  opcode : Opcode
  p1 : Int := 0
  p2 : Int := 0
  p3 : Int := 0
  p4 : Option String := none
  p5 : Int := 0
deriving DecidableEq, Repr

/-- The `p1`/`p2` operands of an `Instruction`: either a plain value or a
forward reference to another instruction (held as the referenced
instruction object, compared structurally, exactly as the Python
`@dataclass` equality used by `list.index` does). -/
inductive Operand where
  | val : Int → Operand
  | ref : PlainInstr → Operand
deriving DecidableEq, Repr

/-- Model of `Instruction` (`toysql/compiler.py`, lines 227–269): an opcode and five
operands; `p1` and `p2` may hold forward references. -/
structure Instr where
  opcode : Opcode
  p1 : Operand := .val 0
  p2 : Operand := .val 0
  p3 : Int := 0
  p4 : Option String := none
  p5 : Int := 0
deriving DecidableEq, Repr

/-- Python `@dataclass` equality between a list element and the referenced
plain instruction: all six fields must agree (a reference held in `p1`/`p2`
never equals a plain `int`). -/
def instrMatches (i : Instr) (b : PlainInstr) : Bool :=
  i.opcode = b.opcode ∧ i.p1 = Operand.val b.p1 ∧ i.p2 = Operand.val b.p2 ∧
    i.p3 = b.p3 ∧ i.p4 = b.p4 ∧ i.p5 = b.p5

/-- The index of the first element satisfying the predicate. -/
def firstIdx {α : Type} (p : α → Bool) : List α → Option Nat
  | [] => none
  | a :: l => if p a then some 0 else (firstIdx p l).map (· + 1)

/-- Model of `list.index(target)`: index of the first structurally equal element, or
`ValueError` when there is none. -/
def listIndex (l : List Instr) (b : PlainInstr) : Except PyErr Nat :=
  match firstIdx (fun i => instrMatches i b) l with
  | some n => .ok n
  | none => .error (.valueError none)

/-- One iteration of the `Program.resolve_refs` loop at position `i`:
rewrite a reference held in `p1`, then one held in `p2`, to the index of the
first matching instruction in the current list. -/
def resolveAt (l : List Instr) (i : Nat) : Except PyErr (List Instr) := do
  match l.get? i with
  | none => pure l
  | some ins =>
    let l1 ←
      match ins.p1 with
      | .ref b => do
        let n ← listIndex l b
        pure (l.set i { ins with p1 := .val n })
      | .val _ => pure l
    match l1.get? i with
    | none => pure l1
    | some ins1 =>
      match ins1.p2 with
      | .ref b => do
        let n ← listIndex l1 b
        pure (l1.set i { ins1 with p2 := .val n })
      | .val _ => pure l1

/-- Model of `Program.resolve_refs` (`toysql/compiler.py`, lines 293–302): iterate
over the instructions in order, rewriting every `Instruction`-valued `p1`
or `p2` to the absolute index of the first structurally equal instruction. -/
def resolveRefs (l : List Instr) : Except PyErr (List Instr) :=
  go (List.range l.length) l
where
  go : List Nat → List Instr → Except PyErr (List Instr)
    | [], cur => .ok cur
    | i :: rest, cur => do go rest (← resolveAt cur i)

/-- Holds iff neither `p1` nor `p2` of the instruction holds an unresolved
forward reference. -/
def Instr.resolved (i : Instr) : Prop :=
  (∃ n, i.p1 = Operand.val n) ∧ (∃ n, i.p2 = Operand.val n)

/-! ## Lexer token kinds (`toysql/lexer.py`, lines 38–46) -/

/-- Model of `class Kind(Enum)` from `toysql/lexer.py`: the complete list of token
kinds the lexer produces. -/
inductive Kind where
  | keyword | symbol | identifier | string | numeric | bool | null
deriving DecidableEq, Repr

/-- Attribute access `Kind.<name>` on the Python `Kind` enum: yields the
member of that name, if the enum has one. -/
def Kind.memberNamed : String → Option Kind
  | "keyword" => some .keyword
  | "symbol" => some .symbol
  | "identifier" => some .identifier
  | "string" => some .string
  | "numeric" => some .numeric
  | "bool" => some .bool
  | "null" => some .null
  | _ => none

/-- Evaluating `Kind.<name>` in the compiler: an `AttributeError` when the
enum has no member of that name. -/
def kindAttr (name : String) : Except PyErr Kind :=
  match Kind.memberNamed name with
  | some k => .ok k
  | none => .error .attributeError

/-- A lexer token, as consumed by the insert branch of `Compiler.compile`
(`token.value` and `token.kind`). -/
structure Token where
  value : String
  kind : Kind
deriving DecidableEq, Repr

/-! ## Compiler (`toysql/compiler.py`, lines 305–573)

The code-generation branches of `Compiler.compile` are embedded as
functions of the data they actually consume: the resolved root page number
(the result of `get_table_root_page_number`), the resolved column indexes
(the result of `get_column_indexes`), the values of the insert statement,
or the table name and SQL text of the create statement.  The register
counter `Memory` starts at `0` for every compile (`memory = Memory()`), so
the register numbers below are the successive values of
`memory.next_addr()`. -/

/-- Model of `SCHEMA_TABLE_NAME` from `toysql/compiler.py`. -/
def SCHEMA_TABLE_NAME : String := "schema"

/-- One row of the schema catalog, as returned by `Compiler.get_schema`:
`(id, type, name, table_name, sql_text, root_page_number)`; the compiler
reads index 2 (`name`), index 4 (`sql_text`) and index 5
(`root_page_number`). -/
structure SchemaRow where
  id : Int
  typ : String
  name : String
  tableName : String
  sqlText : String
  rootPage : Int
deriving DecidableEq, Repr

/-- Model of `Compiler.get_table_root_page_number` (`toysql/compiler.py`, lines
401–411): the schema table itself is rooted at page `0`; otherwise scan the
schema rows for the first whose index-2 field equals the table name and
return its index-5 field; raise `TableFoundException` when none matches. -/
def getTableRootPageNumber (schema : List SchemaRow) (tableName : String) :
    Except PyErr Int :=
  if tableName = SCHEMA_TABLE_NAME then .ok 0
  else
    match schema.find? (fun r => r.name = tableName) with
    | some r => .ok r.rootPage
    | none => .error (.tableFound tableName)

/-- Model of `list.index` on a list of strings (`column_names.index(...)`):
`ValueError` when the name is absent. -/
def strIndex (l : List String) (s : String) : Except PyErr Nat :=
  match l.indexOf? s with
  | some n => .ok n
  | none => .error (.valueError none)

/-- Model of `Compiler.get_column_indexes` (`toysql/compiler.py`, lines 387–399)
with the table's column names (the result of `get_table_column_names`)
passed in: the first `*` item replaces the accumulated indexes with
`range(0, len(column_names))` and stops the loop; any other item is looked
up in the column-name list. -/
def getColumnIndexes (items : List String) (columnNames : List String) :
    Except PyErr (List Nat) :=
  go items []
where
  go : List String → List Nat → Except PyErr (List Nat)
    | [], acc => .ok acc
    | it :: rest, acc =>
      if it = "*" then .ok (List.range columnNames.length)
      else do go rest (acc ++ [← strIndex columnNames it])

/-- The `close = Instruction(Opcode.Close, p1=0)` object that the select
branch appends once and targets from `Rewind` via a forward reference. -/
def closeInstr : PlainInstr := { opcode := .Close }

/-- The select branch of `Compiler.compile` (`toysql/compiler.py`, lines
419–449), before `resolve_refs`: `tablePageNumber` is the result of
`get_table_root_page_number`, `colIdxs` the result of
`get_column_indexes`.  Register numbers: `0` for the root page integer,
`1` for `key_addr`, `2, 3, …` for the columns. -/
def compileSelectCore (tablePageNumber : Int) (colIdxs : List Nat) :
    List Instr :=
  [ { opcode := .Integer, p1 := .val tablePageNumber, p2 := .val 0 },
    { opcode := .OpenRead, p1 := .val 0, p2 := .val 0, p3 := 4 },
    { opcode := .Rewind, p1 := .val 0, p2 := .ref closeInstr },
    { opcode := .Key, p1 := .val 0, p2 := .val 1 } ]
  ++ (colIdxs.enum.map fun p =>
      { opcode := .Column, p1 := .val 0, p2 := .val p.2, p3 := 2 + p.1 })
  ++ [ { opcode := .ResultRow, p1 := .val 1, p2 := .val (colIdxs.length + 1) },
    { opcode := .Next, p1 := .val 0, p2 := .val 3 },
    { opcode := .Close, p1 := .val 0 },
    { opcode := .Halt, p1 := .val 0, p2 := .val 0 } ]

/-- The select branch of `Compiler.compile` including the final
`program.resolve_refs()`. -/
def compileSelect (tablePageNumber : Int) (colIdxs : List Nat) :
    Except PyErr (List Instr) :=
  resolveRefs (compileSelectCore tablePageNumber colIdxs)

/-- Python `int(s)` on a string: optional sign followed by digits, else
`ValueError`. -/
def pyParseIntStr (s : String) : Except PyErr Int :=
  let t := s.trim
  let (sign, digits) :=
    if t.startsWith "-" then ((-1 : Int), t.drop 1)
    else if t.startsWith "+" then ((1 : Int), t.drop 1)
    else ((1 : Int), t)
  if digits.length > 0 ∧ digits.toList.all (·.isDigit) then
    .ok (sign * (digits.toList.foldl (fun acc c => acc * 10 + (c.toNat - 48) : Nat → Char → Nat) 0 : Nat))
  else .error (.valueError none)

/-- The value-loading loop of the insert branch (`toysql/compiler.py`,
lines 462–472).  `addr` is the next register number, `first` the
`first_column_addr` accumulator.  For each token the loop evaluates
`Kind.integer` — an attribute the `Kind` enum does not have — so the first
iteration raises `AttributeError` and the load instructions below are never
built. -/
def compileInsertValues :
    List Token → Nat → Option Nat →
      Except PyErr (List Instr × Nat × Option Nat)
  | [], addr, first => .ok ([], addr, first)
  | t :: rest, addr, first => do
    let first' := some (first.getD addr)
    let kInt ← kindAttr "integer"
    let here1 : List Instr ←
      if t.kind = kInt then do
        let n ← pyParseIntStr t.value
        pure [{ opcode := .Integer, p1 := .val n, p2 := .val addr }]
      else pure []
    let kText ← kindAttr "text"
    let here2 : List Instr :=
      if t.kind = kText then
        [{ opcode := .String, p1 := .val t.value.length, p2 := .val addr,
           p4 := some t.value }]
      else []
    let (tail, addr', first'') ← compileInsertValues rest (addr + 1) first'
    .ok (here1 ++ here2 ++ tail, addr', first'')

/-- The insert branch of `Compiler.compile` (`toysql/compiler.py`, lines
452–483): load the root page number into register `0`, `OpenWrite` on that
register, then the value loop, `MakeRecord`, `Insert`, `Close`.  When the
statement has no values, `first_column_addr` stays `None` and the
`assert first_column_addr` fails; with at least one value the loop raises
`AttributeError` at `Kind.integer`.  (The `MakeRecord` append that Python
performs before the failing `assert` is unobservable because the exception
discards the program.) -/
def compileInsertCore (tablePageNumber : Int) (values : List Token) :
    Except PyErr (List Instr) := do
  let head : List Instr :=
    [ { opcode := .Integer, p1 := .val tablePageNumber, p2 := .val 0, p3 := 0 },
      { opcode := .OpenWrite, p1 := .val 0, p2 := .val 0, p3 := 3 } ]
  let (valueInstrs, addr, first) ← compileInsertValues values 1 none
  match first with
  | none => .error .assertionError
  | some f =>
    .ok (head ++ valueInstrs ++
      [ { opcode := .MakeRecord, p1 := .val f, p2 := .val values.length,
          p3 := addr },
        { opcode := .Insert, p1 := .val 0, p2 := .val addr, p3 := f },
        { opcode := .Close, p1 := .val 0 } ])

/-- The insert branch including the final `program.resolve_refs()`. -/
def compileInsert (tablePageNumber : Int) (values : List Token) :
    Except PyErr (List Instr) := do
  resolveRefs (← compileInsertCore tablePageNumber values)

/-- The create branch of `Compiler.compile` (`toysql/compiler.py`, lines
485–569): registers `0`–`7` are, in allocation order, the schema root page
number, the four string fields (`"table"`, the table name twice, the SQL
text) with the new root page register `4` allocated between them, the
record register `6` and the primary key register `7`. -/
def compileCreateCore (tableName : String) (sqlText : String) : List Instr :=
  [ { opcode := .Integer, p1 := .val 0, p2 := .val 0 },
    { opcode := .OpenWrite, p1 := .val 0, p2 := .val 0, p3 := 5 },
    { opcode := .CreateTable, p1 := .val 4 },
    { opcode := .String, p1 := .val 5, p2 := .val 1, p4 := some "table" },
    { opcode := .String, p1 := .val tableName.length, p2 := .val 2,
      p4 := some tableName },
    { opcode := .String, p1 := .val tableName.length, p2 := .val 3,
      p4 := some tableName },
    { opcode := .String, p1 := .val sqlText.length, p2 := .val 5,
      p4 := some sqlText },
    { opcode := .MakeRecord, p1 := .val 1, p2 := .val 5, p3 := 6 },
    { opcode := .Integer, p1 := .val 1, p2 := .val 7 },
    { opcode := .Insert, p1 := .val 0, p2 := .val 6, p3 := 7 },
    { opcode := .Close, p1 := .val 0 } ]

/-- The create branch including the final `program.resolve_refs()`. -/
def compileCreate (tableName : String) (sqlText : String) :
    Except PyErr (List Instr) :=
  resolveRefs (compileCreateCore tableName sqlText)

/-! ## BPlusTree (`toysql/btree.py`, lines 4–58)

`toysql/page.py` and `toysql/pager.py` are not under `src/`, so the byte
sizes that `BPlusTree.add` compares — `self.pager.page_size`, `len(page)`
and `len(cell)` — are modelled from the spec (§2.1/§4.1: pages are
fixed-size byte blocks, cells are key-value units serialized into them) as
abstract integers. -/

/-- Modelled from the spec: `page.py` and `pager.py` are not under
`src/`, so the sizes consulted by `BPlusTree.add` are abstract —
`pageSize` is `pager.page_size`, `pageLen` the serialized length of the
leaf page found by `_search`, `cellLen` the serialized length of the new
`LeafPageCell` (spec §2.1/§4.1: pages are fixed-size byte blocks, cells
are key-value units serialized into them). -/
structure AddEnv where
  pageSize : Int
  pageLen : Int
  cellLen : Int
deriving DecidableEq, Repr

/-- Model of `BPlusTree._split` (`toysql/btree.py`, lines 47–50): the body is left
unimplemented and returns the empty list. -/
def bplusTreeSplit {α : Type} (_page : α) : List α := []

/-- What `BPlusTree.add` did to the tree when it returns normally. -/
inductive AddOutcome where
  /-- The call `self.root.add_cell(cell)` ran: the cell was appended to the root
  page (no split, no new page, no separator propagation). -/
  | addedToRoot
deriving DecidableEq, Repr

/-- Model of `BPlusTree.add` (`toysql/btree.py`, lines 23–35): build the leaf cell,
locate the target page, and if `page_size - len(page) < len(cell)` run
`[left, right] = self._split(page)` — which raises `ValueError` because
`_split` returns an empty list that cannot be unpacked into two names —
otherwise fall through to `self.root.add_cell(cell)`. -/
def bplusTreeAdd (env : AddEnv) : Except PyErr AddOutcome :=
  if env.pageSize - env.pageLen < env.cellLen then
    match bplusTreeSplit env with
    | [_left, _right] => .ok .addedToRoot
    | _ => .error (.valueError none)
  else .ok .addedToRoot

/-! ## Virtual machine (`toysql/vmV1.py`, lines 41–262)

`VM.execute` is a Python generator: a `while True` fetch-decode-execute
loop over `(cursor, registers, btrees)` that `yield`s at `ResultRow`,
`break`s at a successful `Halt` and raises on errors.  We embed the loop
body as a step function `vmStep` from a machine state to a step result.
The `BTree` class the VM instantiates is not under `src/`
(`toysql/btree.py` defines only `BPlusTree`, which lacks the methods the
VM calls), so the tree behind a cursor is modelled from the spec: `scan()`
is the ascending list of leaf cells (§4.2), and the cells hold
`(row_id, typed values)` (§3). -/

/-- Modelled from the spec: `record.py` is not under `src/`, so its
`DataType` enum is taken from spec §3 — `DataType ∈ {integer, text,
null, …}`; the VM names `DataType.integer` and `DataType.text`. -/
inductive DataTypeV where
  | integer | text | null
deriving DecidableEq, Repr

/-- A runtime value held in a VM register: `None`, an `int`, a `str`, a
`Record` built by `MakeRecord` (whose entries are `[type, value]` or
`[value]` lists, modelled as an optional type tag and the value), or an
`Instruction` object (which `Integer` would store if `p1` were an
unresolved reference). -/
inductive VValue where
  | vnull : VValue
  | vint : Int → VValue
  | vstr : String → VValue
  | vrec : List (Option DataTypeV × VValue) → VValue
  | vobj : PlainInstr → VValue

/-- Modelled from the spec: the `BTree`/`Record` classes behind a scan
are not under `src/`; per spec §3 a row produced by a tree scan is a leaf
cell holding the row id and the record's ordered `(DataType, value)`
pairs. -/
structure RowV where
  row_id : Int
  values : List (DataTypeV × VValue)

/-- A VM cursor: the `PeekIterator` state over the tree's scan, plus the
tree content it proxies attribute lookups to. -/
structure CursorV where
  tree : List RowV
  st : PeekState RowV

/-- Modelled from the spec: `pager.py` is not under `src/`; per spec
§4.1 the pager is a growable sequence of pages, each identified by its
index; for the VM each page is represented by the scan rows of the tree
rooted there.  `new()` appends a fresh page and returns its number. -/
structure PagerV where
  pages : List (List RowV)

/-- Modelled from the spec: `pager.new()` allocates a fresh page and
returns its page number (spec §4.1 `allocate_page`). -/
def PagerV.new (p : PagerV) : Int × PagerV :=
  ((p.pages.length : Int), ⟨p.pages ++ [[]]⟩)

/-- Modelled from the spec: the `BTree` class is not under `src/`, so
`PeekIterator(BTree(self.pager, page_number))` is a cursor whose iterator
is the ascending scan (spec §4.2) of the tree rooted at that page; an
invalid page number fails (`PageNotFoundException`). -/
def openCursor (p : PagerV) (n : Int) : Except PyErr CursorV :=
  if h : 0 ≤ n ∧ n < p.pages.length then
    let rows := p.pages.get ⟨n.toNat, by omega⟩
    .ok ⟨rows, ⟨[], rows⟩⟩
  else .error (.exception (some "PageNotFound"))

/-- Dict lookup (`registers[k]`, `btrees[k]`): `KeyError` when absent. -/
def alistGet {β : Type} (rs : List (Int × β)) (k : Int) : Except PyErr β :=
  match rs.find? (fun kv => kv.1 = k) with
  | some kv => .ok kv.2
  | none => .error .keyError

/-- Dict assignment (`registers[k] = v`). -/
def alistSet {β : Type} (rs : List (Int × β)) (k : Int) (v : β) :
    List (Int × β) :=
  if rs.any (fun kv => kv.1 = k) then
    rs.map (fun kv => if kv.1 = k then (k, v) else kv)
  else rs ++ [(k, v)]

/-- Python list indexing `l[i]` with negative-index wrap-around; `none`
models `IndexError`. -/
def pyListGet {α : Type} (l : List α) (i : Int) : Option α :=
  let j := if i < 0 then (l.length : Int) + i else i
  if 0 ≤ j ∧ j < l.length then l.get? j.toNat else none

/-- Model of `range(a, b + 1)`: the integers from `a` to `b` inclusive, empty when
`b < a`. -/
def intRangeIncl (a b : Int) : List Int :=
  (List.range (b + 1 - a).toNat).map (fun n => a + (n : Int))

/-- Using an operand where Python needs an `int` (a dict key, a jump
target, list-index or `+` arithmetic): an unresolved `Instruction`
reference fails with `TypeError` (dataclasses with `eq=True` are
unhashable, and none of these operations accept an `Instruction`). -/
def Operand.asInt : Operand → Except PyErr Int
  | .val i => .ok i
  | .ref _ => .error .typeError

/-- The value `registers[p2] = instruction.p1` stores: the operand object
itself. -/
def Operand.toValue : Operand → VValue
  | .val i => .vint i
  | .ref b => .vobj b

/-- Python `int(v)` as used by `MustBeInt`: ints pass through, strings are
parsed (`ValueError` on failure), anything else is a `TypeError` — which
the VM's `except ValueError` does not catch. -/
def pyIntValue : VValue → Except PyErr Int
  | .vint i => .ok i
  | .vstr s => pyParseIntStr s
  | _ => .error .typeError

/-- Model of `next_record.row_id == registers[p3]` and friends: Python `==` between
the `int` row id and an arbitrary register value (`False` across types). -/
def pyRowIdEq (row : RowV) (v : VValue) : Bool :=
  match v with
  | .vint i => row.row_id = i
  | _ => false

/-- Modelled from the spec: `BTree.find` is not under `src/`; per spec
§4.2 `search`, it returns the row of the tree whose key matches, if any. -/
def treeFind (rows : List RowV) (key : VValue) : Option RowV :=
  rows.find? (fun r => pyRowIdEq r key)

/-- Modelled from the spec: `BTree.new_row_id` is not under `src/`; per
spec §9 (monotonic auto-increment per tree) it is one more than the
largest row id in the tree. -/
def newRowId (rows : List RowV) : Int :=
  (rows.map (fun r => r.row_id)).foldl max 0 + 1

/-- Modelled from the spec: `record.py` is not under `src/`, so
`record.row_id` — read by the `Insert` branch — is the integer key
carried by the record's first field; anything else fails. -/
def recRowId (fields : List (Option DataTypeV × VValue)) : Option Int :=
  match fields.head? with
  | some (_, .vint i) => some i
  | _ => none

/-- Modelled from the spec: the `BTree.insert` that
`btrees[p1].insert(record)` proxies to is not under `src/`; per spec §4.2
`insert`, the record is added to the tree keyed by its row id; the
already open iterator state is unchanged. -/
def cursorInsert (c : CursorV) (record : VValue) :
    Except PyErr (CursorV × Int) :=
  match record with
  | .vrec fields =>
    match recRowId fields with
    | some rid =>
      let row : RowV := ⟨rid, fields.map (fun f => (f.1.getD .null, f.2))⟩
      .ok ({ c with tree := c.tree ++ [row] }, rid)
    | none => .error .attributeError
  | _ => .error .attributeError

/-- The `while True` loop of the `SeekRowid` branch (`toysql/vmV1.py`,
lines 120–140), acting on the peeked deque and the remaining scan: peek;
stop (not found) at `None`; stop (found) on a row-id match; otherwise
`next` and repeat. -/
def seekLoopAux (p : List (Option RowV)) (r : List RowV) (t : VValue) :
    Bool × List (Option RowV) × List RowV :=
  match p, r with
  | [], [] => (false, [none], [])
  | [], a :: r' =>
    if pyRowIdEq a t then (true, [some a], r') else seekLoopAux [] r' t
  | none :: p', r => (false, none :: p', r)
  | some row :: p', r =>
    if pyRowIdEq row t then (true, some row :: p', r)
    else seekLoopAux p' r t
termination_by p.length + r.length
decreasing_by
  all_goals simp only [List.length_cons, List.length_nil]
  all_goals omega

/-- The loop body of `MakeRecord` (`toysql/vmV1.py`, lines 193–207):
`for i in range(p2)`, read the affinity character `p4[i]` (an `IndexError`
past the end of the string), tag `D` as integer and `B` as text (any other
character appends no type), and append the value of register `p1 + i`. -/
def makeRecordFields (regs : List (Int × VValue)) (chars : List Char)
    (p1 : Int) : Nat → Nat → Except PyErr (List (Option DataTypeV × VValue))
  | _, 0 => .ok []
  | i, m + 1 => do
    let c ←
      match chars.get? i with
      | some c => Except.ok c
      | none => .error .indexError
    let tag : Option DataTypeV :=
      if c = 'D' then some .integer
      else if c = 'B' then some .text
      else none
    let v ← alistGet regs (p1 + (i : Int))
    let rest ← makeRecordFields regs chars p1 (i + 1) m
    .ok ((tag, v) :: rest)

/-- The VM machine state: the program counter (`cursor` in the source),
the register dict, the open-cursor dict, and the pager. -/
structure VmState where
  pc : Int
  regs : List (Int × VValue)
  btrees : List (Int × CursorV)
  pager : PagerV

/-- The result of executing one instruction: continue in a new state,
suspend yielding a result row and resume in a new state, stop
successfully (`Halt` with `p1 == 0`), or raise. -/
inductive StepRes where
  | cont : VmState → StepRes
  | yieldRow : List VValue → VmState → StepRes
  | done : StepRes
  | fail : PyErr → StepRes

/-- Collapse a Python-exception computation into a step result. -/
def runE : Except PyErr StepRes → StepRes
  | .ok r => r
  | .error e => .fail e

/-- An unconditional transfer of control to operand `o`. -/
def jumpTo (s : VmState) (o : Operand) : Except PyErr StepRes := do
  pure (.cont { s with pc := ← o.asInt })

/-- One iteration of the `while True` loop of `VM.execute`
(`toysql/vmV1.py`, lines 50–260): fetch `program.instructions[cursor]`
and dispatch on the opcode.  Opcodes without a branch in the source
(`CreateTable`, `Null`, `Key`, `Close`) leave `cursor` unchanged, so the Python
loop refetches the same instruction forever; this is modelled by a `cont`
with an unchanged state.  Where Python would carry an `Instruction` object
into an int-only position (a jump target, a dict key, arithmetic), the
step fails with the `TypeError` Python raises when that value is next
used. -/
def vmStep (prog : List Instr) (s : VmState) : StepRes :=
  match pyListGet prog s.pc with
  | none => .fail .indexError
  | some ins =>
    match ins.opcode with
    | .Init => runE (jumpTo s ins.p2)
    | .Transaction => .cont { s with pc := s.pc + 1 }
    | .CreateBtree =>
      runE do
        let k ← ins.p2.asInt
        let (n, pg) := s.pager.new
        pure (.cont { s with
          pc := s.pc + 1
          regs := alistSet s.regs k (.vint n), pager := pg })
    | .Goto => runE (jumpTo s ins.p2)
    | .SCopy =>
      runE do
        let v ← alistGet s.regs (← ins.p1.asInt)
        pure (.cont { s with
          pc := s.pc + 1
          regs := alistSet s.regs (← ins.p2.asInt) v })
    | .OpenWrite =>
      runE do
        let k ← ins.p1.asInt
        let c ← openCursor s.pager (← ins.p2.asInt)
        pure (.cont { s with
          pc := s.pc + 1
          btrees := alistSet s.btrees k c })
    | .OpenRead =>
      runE do
        let k ← ins.p1.asInt
        let c ← openCursor s.pager (← ins.p2.asInt)
        pure (.cont { s with
          pc := s.pc + 1
          btrees := alistSet s.btrees k c })
    | .SoftNull => .cont { s with pc := s.pc + 1 }
    | .NotNull =>
      runE do
        let v ← alistGet s.regs (← ins.p1.asInt)
        match v with
        | .vnull => pure (.cont { s with pc := s.pc + 1 })
        | _ => jumpTo s ins.p2
    | .IsNull =>
      runE do
        let v ← alistGet s.regs (← ins.p1.asInt)
        match v with
        | .vnull => jumpTo s ins.p2
        | _ => pure (.cont { s with pc := s.pc + 1 })
    | .String =>
      runE do
        let k ← ins.p2.asInt
        let v : VValue :=
          match ins.p4 with
          | some t => .vstr t
          | none => .vnull
        pure (.cont { s with pc := s.pc + 1, regs := alistSet s.regs k v })
    | .Integer =>
      runE do
        let k ← ins.p2.asInt
        pure (.cont { s with
          pc := s.pc + 1
          regs := alistSet s.regs k ins.p1.toValue })
    | .NewRowid =>
      runE do
        let c ← alistGet s.btrees (← ins.p1.asInt)
        let k ← ins.p2.asInt
        pure (.cont { s with
          pc := s.pc + 1
          regs := alistSet s.regs k (.vint (newRowId c.tree)) })
    | .SeekRowid =>
      runE do
        let ck ← ins.p1.asInt
        let c ← alistGet s.btrees ck
        let target ← alistGet s.regs ins.p3
        let (found, p, r) := seekLoopAux c.st.peeked c.st.remaining target
        let s1 := { s with btrees := alistSet s.btrees ck { c with st := ⟨p, r⟩ } }
        if found then pure (.cont { s1 with pc := s1.pc + 1 })
        else jumpTo s1 ins.p2
    | .MustBeInt =>
      runE do
        let k ← ins.p1.asInt
        let v ← alistGet s.regs k
        match pyIntValue v with
        | .ok n =>
          pure (.cont { s with
            pc := s.pc + 1
            regs := alistSet s.regs k (.vint n) })
        | .error (.valueError _) =>
          if ins.p2 = Operand.val 0 then
            Except.error (.valueError (some "TOYSQL TYPE MISMATCH"))
          else jumpTo s ins.p2
        | .error e => Except.error e
    | .Noop => .cont { s with pc := s.pc + 1 }
    | .NotExists =>
      runE do
        let c ← alistGet s.btrees (← ins.p1.asInt)
        let key ← alistGet s.regs ins.p3
        match treeFind c.tree key with
        | some _ => Except.error (.exception (some "It found"))
        | none => jumpTo s ins.p2
    | .Rewind =>
      runE do
        let ck ← ins.p1.asInt
        let c ← alistGet s.btrees ck
        let (v, st) := c.st.peek 0
        let s1 := { s with btrees := alistSet s.btrees ck { c with st := st } }
        match v with
        | none => jumpTo s1 ins.p2
        | some _ => pure (.cont { s1 with pc := s1.pc + 1 })
    | .Rowid =>
      runE do
        let ck ← ins.p1.asInt
        let c ← alistGet s.btrees ck
        let (v, st) := c.st.peek 0
        let s1 := { s with btrees := alistSet s.btrees ck { c with st := st } }
        match v with
        | none => Except.error .attributeError
        | some row =>
          let k ← ins.p2.asInt
          pure (.cont { s1 with
            pc := s1.pc + 1
            regs := alistSet s1.regs k (.vint row.row_id) })
    | .Column =>
      runE do
        let ck ← ins.p1.asInt
        let c ← alistGet s.btrees ck
        let (v, st) := c.st.peek 0
        let s1 := { s with btrees := alistSet s.btrees ck { c with st := st } }
        match v with
        | none => Except.error .attributeError
        | some row =>
          let idx ← ins.p2.asInt
          match pyListGet row.values idx with
          | none => Except.error .indexError
          | some el =>
            pure (.cont { s1 with
              pc := s1.pc + 1
              regs := alistSet s1.regs ins.p3 el.2 })
    | .MakeRecord =>
      match ins.p4 with
      | none => .fail .assertionError
      | some aff =>
        if aff.length = 0 then .fail .assertionError
        else
          runE do
            let n ← ins.p2.asInt
            let base ← ins.p1.asInt
            let fields ← makeRecordFields s.regs aff.toList base 0 n.toNat
            pure (.cont { s with
              pc := s.pc + 1
              regs := alistSet s.regs ins.p3 (.vrec fields) })
    | .ResultRow =>
      runE do
        let a ← ins.p1.asInt
        let b ← ins.p2.asInt
        let vals ← (intRangeIncl a b).mapM (alistGet s.regs)
        pure (.yieldRow vals { s with pc := s.pc + 1 })
    | .Insert =>
      runE do
        let ck ← ins.p1.asInt
        let c ← alistGet s.btrees ck
        let rk ← ins.p2.asInt
        let record ← alistGet s.regs rk
        let (c1, rid) ← cursorInsert c record
        let regs1 := alistSet s.regs ins.p3 (.vint rid)
        let regs2 := alistSet regs1 rk record
        pure (.cont { s with
          pc := s.pc + 1
          regs := regs2
          btrees := alistSet s.btrees ck c1 })
    | .Next =>
      runE do
        let ck ← ins.p1.asInt
        let c ← alistGet s.btrees ck
        let (_, st1) := c.st.next
        let (v, st2) := st1.peek 0
        let s1 := { s with btrees := alistSet s.btrees ck { c with st := st2 } }
        match v with
        | some _ => jumpTo s1 ins.p2
        | none => pure (.cont { s1 with pc := s1.pc + 1 })
    | .Halt =>
      if ins.p1 = Operand.val 0 then .done
      else .fail (.exception ins.p4)
    | .CreateTable => .cont s
    | .Null => .cont s
    | .Key => .cont s
    | .Close => .cont s

/-! ## Helper lemmas -/

lemma firstIdx_append_of_none {α : Type} (p : α → Bool) (l1 l2 : List α)
    (h : ∀ x ∈ l1, p x = false) :
    firstIdx p (l1 ++ l2) = (firstIdx p l2).map (· + l1.length) := by
  induction l1 with
  | nil =>
    cases hfi : firstIdx p l2 <;> simp [hfi]
  | cons a l ih =>
    have ha : p a = false := h a (by simp)
    have hl : ∀ x ∈ l, p x = false := fun x hx => h x (by simp [hx])
    cases hfi : firstIdx p l2 <;>
      simp [firstIdx, ha, ih hl, hfi]
    omega

lemma instrMatches_false_of_opcode (i : Instr) (b : PlainInstr)
    (h : i.opcode ≠ b.opcode) : instrMatches i b = false := by
  simp [instrMatches, h]

lemma resolveAt_of_get_resolved (l : List Instr) (i : Nat) (ins : Instr)
    (hg : l.get? i = some ins) (h1 : ∃ v, ins.p1 = Operand.val v)
    (h2 : ∃ v, ins.p2 = Operand.val v) :
    resolveAt l i = .ok l := by
  obtain ⟨v1, hv1⟩ := h1
  obtain ⟨v2, hv2⟩ := h2
  have hg' : l[i]? = some ins := by simpa [List.get?_eq_getElem?] using hg
  simp [resolveAt, hg', hv1, hv2, Bind.bind, Except.bind, Pure.pure, Except.pure]

lemma resolveAt_oob (l : List Instr) (i : Nat) (hg : l.get? i = none) :
    resolveAt l i = .ok l := by
  have hg' : l[i]? = none := by simpa [List.get?_eq_getElem?] using hg
  simp [resolveAt, hg', Pure.pure, Except.pure]

lemma resolveRefs_go_of_resolved (idxs : List Nat) (l : List Instr)
    (h : ∀ ins ∈ l, ins.resolved) :
    resolveRefs.go idxs l = .ok l := by
  induction idxs with
  | nil => rfl
  | cons i rest ih =>
    have hstep : resolveAt l i = .ok l := by
      cases hg : l.get? i with
      | none => exact resolveAt_oob l i hg
      | some ins =>
        exact resolveAt_of_get_resolved l i ins hg
          (h ins (List.get?_mem hg)).1 (h ins (List.get?_mem hg)).2
    simp [resolveRefs.go, hstep, ih, Bind.bind, Except.bind]


lemma compileSelectCore_length (t : Int) (c : List Nat) :
    (compileSelectCore t c).length = 8 + c.length := by
  simp [compileSelectCore]
  omega

lemma select_firstIdx (t : Int) (c : List Nat) :
    firstIdx (fun i => instrMatches i closeInstr)
      ({ opcode := .Integer, p1 := .val t, p2 := .val 0 } ::
        { opcode := .OpenRead, p1 := .val 0, p2 := .val 0, p3 := 4 } ::
        { opcode := .Rewind, p1 := .val 0, p2 := .ref closeInstr } ::
        { opcode := .Key, p1 := .val 0, p2 := .val 1 } ::
        ((c.enum.map fun q =>
          ({ opcode := .Column, p1 := .val 0, p2 := .val q.2, p3 := 2 + q.1 } : Instr)) ++
         [ { opcode := .ResultRow, p1 := .val 1, p2 := .val (c.length + 1) },
           { opcode := .Next, p1 := .val 0, p2 := .val 3 },
           { opcode := .Close, p1 := .val 0 },
           { opcode := .Halt, p1 := .val 0, p2 := .val 0 } ])) =
      some (6 + c.length) := by
  have hcols : ∀ x ∈ (c.enum.map fun q =>
      ({ opcode := .Column, p1 := .val 0, p2 := .val q.2, p3 := 2 + q.1 } : Instr)),
      instrMatches x closeInstr = false := by
    intro x hx
    simp only [List.mem_map] at hx
    obtain ⟨q, _, rfl⟩ := hx
    exact instrMatches_false_of_opcode _ _ (by simp [closeInstr])
  have h_i0 : instrMatches
      { opcode := .Integer, p1 := .val t, p2 := .val 0 } closeInstr = false :=
    instrMatches_false_of_opcode _ _ (by simp [closeInstr])
  have h_i1 : instrMatches
      { opcode := .OpenRead, p1 := .val 0, p2 := .val 0, p3 := 4 } closeInstr = false :=
    instrMatches_false_of_opcode _ _ (by simp [closeInstr])
  have h_rew : instrMatches
      { opcode := .Rewind, p1 := .val 0, p2 := .ref closeInstr } closeInstr = false :=
    instrMatches_false_of_opcode _ _ (by simp [closeInstr])
  have h_key : instrMatches
      { opcode := .Key, p1 := .val 0, p2 := .val 1 } closeInstr = false :=
    instrMatches_false_of_opcode _ _ (by simp [closeInstr])
  have h_rr : instrMatches
      { opcode := .ResultRow, p1 := .val 1, p2 := .val (c.length + 1) } closeInstr = false :=
    instrMatches_false_of_opcode _ _ (by simp [closeInstr])
  have h_nx : instrMatches
      { opcode := .Next, p1 := .val 0, p2 := .val 3 } closeInstr = false :=
    instrMatches_false_of_opcode _ _ (by simp [closeInstr])
  have h_cl : instrMatches
      { opcode := .Close, p1 := .val 0 } closeInstr = true := by decide
  rw [firstIdx, if_neg (by simp [h_i0]), firstIdx, if_neg (by simp [h_i1]),
    firstIdx, if_neg (by simp [h_rew]), firstIdx, if_neg (by simp [h_key])]
  rw [firstIdx_append_of_none _ _ _ hcols]
  rw [firstIdx, if_neg (by simp [h_rr]), firstIdx, if_neg (by simp [h_nx]),
    firstIdx, if_pos (by simp [h_cl])]
  simp [List.enum_length]
  omega


lemma compileSelect_eq (t : Int) (c : List Nat) :
    compileSelect t c = .ok
      ([ { opcode := .Integer, p1 := .val t, p2 := .val 0 },
         { opcode := .OpenRead, p1 := .val 0, p2 := .val 0, p3 := 4 },
         { opcode := .Rewind, p1 := .val 0, p2 := .val ((6 + c.length : Nat) : Int) },
         { opcode := .Key, p1 := .val 0, p2 := .val 1 } ]
       ++ (c.enum.map fun q =>
           { opcode := .Column, p1 := .val 0, p2 := .val q.2, p3 := 2 + q.1 })
       ++ [ { opcode := .ResultRow, p1 := .val 1, p2 := .val (c.length + 1) },
         { opcode := .Next, p1 := .val 0, p2 := .val 3 },
         { opcode := .Close, p1 := .val 0 },
         { opcode := .Halt, p1 := .val 0, p2 := .val 0 } ]) := by
  have hg0 : (compileSelectCore t c).get? 0 =
      some { opcode := .Integer, p1 := .val t, p2 := .val 0 } := rfl
  have hg1 : (compileSelectCore t c).get? 1 =
      some { opcode := .OpenRead, p1 := .val 0, p2 := .val 0, p3 := 4 } := rfl
  have hg2 : (compileSelectCore t c).get? 2 =
      some { opcode := .Rewind, p1 := .val 0, p2 := .ref closeInstr } := rfl
  have h0 : resolveAt (compileSelectCore t c) 0 = .ok (compileSelectCore t c) :=
    resolveAt_of_get_resolved _ 0 _ hg0 ⟨t, rfl⟩ ⟨0, rfl⟩
  have h1 : resolveAt (compileSelectCore t c) 1 = .ok (compileSelectCore t c) :=
    resolveAt_of_get_resolved _ 1 _ hg1 ⟨0, rfl⟩ ⟨0, rfl⟩
  have h2 : resolveAt (compileSelectCore t c) 2 = .ok
      ([ { opcode := .Integer, p1 := .val t, p2 := .val 0 },
         { opcode := .OpenRead, p1 := .val 0, p2 := .val 0, p3 := 4 },
         { opcode := .Rewind, p1 := .val 0, p2 := .val ((6 + c.length : Nat) : Int) },
         { opcode := .Key, p1 := .val 0, p2 := .val 1 } ]
       ++ (c.enum.map fun q =>
           { opcode := .Column, p1 := .val 0, p2 := .val q.2, p3 := 2 + q.1 })
       ++ [ { opcode := .ResultRow, p1 := .val 1, p2 := .val (c.length + 1) },
         { opcode := .Next, p1 := .val 0, p2 := .val 3 },
         { opcode := .Close, p1 := .val 0 },
         { opcode := .Halt, p1 := .val 0, p2 := .val 0 } ]) := by
    have hg2' : (compileSelectCore t c)[2]? =
        some { opcode := .Rewind, p1 := .val 0, p2 := .ref closeInstr } := by
      simpa [List.get?_eq_getElem?] using hg2
    simp [resolveAt, hg2', listIndex, select_firstIdx, compileSelectCore,
      Bind.bind, Except.bind, Pure.pure, Except.pure, List.set]
  have hres : ∀ ins ∈
      ([ { opcode := .Integer, p1 := .val t, p2 := .val 0 },
         { opcode := .OpenRead, p1 := .val 0, p2 := .val 0, p3 := 4 },
         { opcode := .Rewind, p1 := .val 0, p2 := .val ((6 + c.length : Nat) : Int) },
         { opcode := .Key, p1 := .val 0, p2 := .val 1 } ]
       ++ (c.enum.map fun q =>
           ({ opcode := .Column, p1 := .val 0, p2 := .val q.2, p3 := 2 + q.1 } : Instr))
       ++ [ { opcode := .ResultRow, p1 := .val 1, p2 := .val (c.length + 1) },
         { opcode := .Next, p1 := .val 0, p2 := .val 3 },
         { opcode := .Close, p1 := .val 0 },
         { opcode := .Halt, p1 := .val 0, p2 := .val 0 } ]), ins.resolved := by
    intro ins hins
    rcases List.mem_append.1 hins with h | h
    · rcases List.mem_append.1 h with h4 | hm
      · fin_cases h4 <;> exact ⟨⟨_, rfl⟩, ⟨_, rfl⟩⟩
      · obtain ⟨q, _, rfl⟩ := List.mem_map.1 hm
        exact ⟨⟨_, rfl⟩, ⟨_, rfl⟩⟩
    · fin_cases h <;> exact ⟨⟨_, rfl⟩, ⟨_, rfl⟩⟩
  have hrange : List.range ((compileSelectCore t c).length) =
      0 :: 1 :: 2 :: List.range' 3 (5 + c.length) := by
    rw [compileSelectCore_length,
      show 8 + c.length = 5 + c.length + 1 + 1 + 1 from by omega,
      List.range_eq_range', List.range'_succ, List.range'_succ, List.range'_succ]
  unfold compileSelect resolveRefs
  rw [hrange]
  simp only [resolveRefs.go, Bind.bind, Except.bind]
  rw [h0]
  simp only []
  rw [h1]
  simp only []
  rw [h2]
  exact resolveRefs_go_of_resolved _ _ hres

lemma compileCreate_eq (name sql : String) :
    compileCreate name sql = .ok (compileCreateCore name sql) := by
  have hres : ∀ ins ∈ compileCreateCore name sql, ins.resolved := by
    intro ins hins
    fin_cases hins <;> exact ⟨⟨_, rfl⟩, ⟨_, rfl⟩⟩
  unfold compileCreate resolveRefs
  exact resolveRefs_go_of_resolved _ _ hres

lemma compileInsert_error (root : Int) (values : List Token)
    (h : values ≠ []) :
    compileInsert root values = .error .attributeError := by
  obtain ⟨t, rest, rfl⟩ := List.exists_cons_of_ne_nil h
  simp [compileInsert, compileInsertCore, compileInsertValues, kindAttr,
    Kind.memberNamed, Bind.bind, Except.bind]

namespace PeekState

lemma nthNext_of_lt {α : Type} (p : List (Option α)) (r : List α) (k : Nat)
    (h : k < p.length) : nthNext ⟨p, r⟩ k = p.getD k none := by
  induction p generalizing k with
  | nil => simp at h
  | cons v p ih =>
    cases k with
    | zero => simp [nthNext, next]
    | succ k =>
      have hstep : nthNext ⟨v :: p, r⟩ (k + 1) = nthNext ⟨p, r⟩ k := by
        simp [nthNext, next]
      rw [hstep, ih k (by simpa using h)]
      simp

lemma nthNext_snoc_some {α : Type} (p : List (Option α)) (a : α) (r : List α)
    (n : Nat) : nthNext ⟨p ++ [some a], r⟩ n = nthNext ⟨p, a :: r⟩ n := by
  induction p generalizing n with
  | nil =>
    cases n with
    | zero => simp [nthNext, next, safeNext]
    | succ n => simp [nthNext, next, safeNext]
  | cons v p ih =>
    cases n with
    | zero => simp [nthNext, next]
    | succ n => simpa [nthNext, next] using ih n

lemma nthNext_snoc_none {α : Type} (p : List (Option α)) (n : Nat) :
    nthNext (⟨p ++ [none], []⟩ : PeekState α) n = nthNext ⟨p, []⟩ n := by
  induction p generalizing n with
  | nil =>
    cases n with
    | zero => simp [nthNext, next, safeNext]
    | succ n => simp [nthNext, next, safeNext]
  | cons v p ih =>
    cases n with
    | zero => simp [nthNext, next]
    | succ n => simpa [nthNext, next] using ih n

lemma fill_stream_aux {α : Type} (k : Nat) :
    ∀ (m : Nat) (p : List (Option α)) (r : List α) (n : Nat),
      k + 1 - p.length ≤ m →
      nthNext ⟨(fill p r k).1, (fill p r k).2⟩ n = nthNext ⟨p, r⟩ n := by
  intro m
  induction m with
  | zero =>
    intro p r n hm
    rw [fill.eq_def, if_neg (by omega)]
  | succ m ih =>
    intro p r n hm
    rw [fill.eq_def]
    by_cases hle : p.length ≤ k
    · rw [if_pos hle]
      cases r with
      | nil =>
        show nthNext ⟨(fill (p ++ [none]) [] k).1, (fill (p ++ [none]) [] k).2⟩ n = _
        rw [ih (p ++ [none]) [] n (by simp; omega)]
        exact nthNext_snoc_none p n
      | cons a r' =>
        show nthNext ⟨(fill (p ++ [some a]) r' k).1, (fill (p ++ [some a]) r' k).2⟩ n = _
        rw [ih (p ++ [some a]) r' n (by simp; omega)]
        exact nthNext_snoc_some p a r' n
    · rw [if_neg hle]

lemma fill_stream {α : Type} (p : List (Option α)) (r : List α) (k n : Nat) :
    nthNext ⟨(fill p r k).1, (fill p r k).2⟩ n = nthNext ⟨p, r⟩ n :=
  fill_stream_aux k (k + 1 - p.length) p r n le_rfl

lemma fill_length_aux {α : Type} (k : Nat) :
    ∀ (m : Nat) (p : List (Option α)) (r : List α),
      k + 1 - p.length ≤ m → k < (fill p r k).1.length := by
  intro m
  induction m with
  | zero =>
    intro p r hm
    rw [fill.eq_def, if_neg (by omega)]
    show k < p.length
    omega
  | succ m ih =>
    intro p r hm
    rw [fill.eq_def]
    by_cases hle : p.length ≤ k
    · rw [if_pos hle]
      cases r with
      | nil =>
        show k < (fill (p ++ [none]) [] k).1.length
        exact ih (p ++ [none]) [] (by simp; omega)
      | cons a r' =>
        show k < (fill (p ++ [some a]) r' k).1.length
        exact ih (p ++ [some a]) r' (by simp; omega)
    · rw [if_neg hle]
      show k < p.length
      omega

lemma fill_length {α : Type} (p : List (Option α)) (r : List α) (k : Nat) :
    k < (fill p r k).1.length :=
  fill_length_aux k (k + 1 - p.length) p r le_rfl

lemma fill_allnone_aux {α : Type} (k : Nat) :
    ∀ (m : Nat) (p : List (Option α)), k + 1 - p.length ≤ m →
      (∀ x ∈ p, x = none) →
      (∀ x ∈ (fill p ([] : List α) k).1, x = none) ∧
        (fill p ([] : List α) k).2 = [] := by
  intro m
  induction m with
  | zero =>
    intro p hm hp
    rw [fill.eq_def, if_neg (by omega)]
    exact ⟨hp, rfl⟩
  | succ m ih =>
    intro p hm hp
    rw [fill.eq_def]
    by_cases hle : p.length ≤ k
    · rw [if_pos hle]
      show (∀ x ∈ (fill (p ++ [none]) [] k).1, x = none) ∧
        (fill (p ++ [none]) [] k).2 = []
      refine ih (p ++ [none]) (by simp; omega) ?_
      intro x hx
      rcases List.mem_append.1 hx with hx | hx
      · exact hp x hx
      · simpa using hx
    · rw [if_neg hle]
      exact ⟨hp, rfl⟩

lemma getD_allnone {α : Type} (l : List (Option α)) (k : Nat)
    (h : ∀ x ∈ l, x = none) : l.getD k none = none := by
  rw [List.getD_eq_getElem?_getD]
  cases hg : l[k]? with
  | none => rfl
  | some x =>
    have hx : x ∈ l := by
      apply List.get?_mem
      rw [List.get?_eq_getElem?]
      exact hg
    simp [h x hx]

end PeekState

/-! ## Claim theorems -/

/-- Claim C1: For every SELECT whose table name resolves in the schema
catalog (`get_table_root_page_number` succeeds with root page `root`) and
whose select items resolve to column indexes, the compiled program is
exactly: load `root` into register 0, open the read cursor on that
register (`OpenRead` with `p2 = 0`), `Rewind` jumping to the `Close` at
index `6 + n` when the table is empty, then the loop body — `Key` loading
the rowid into register 1, one `Column` per selected index into registers
`2, 3, …`, `ResultRow` over the rowid and column registers, `Next` jumping
back to the `Key` at index 3 — then `Close` and `Halt`.  The last conjunct
is the `*` case of `get_column_indexes`: a leading `*` resolves to all
columns in schema order. -/
theorem select_compile_shape
    (schema : List SchemaRow) (tableName : String) (root : Int)
    (items colNames : List String) (idxs : List Nat)
    (hroot : getTableRootPageNumber schema tableName = .ok root)
    (hcols : getColumnIndexes items colNames = .ok idxs) :
    compileSelect root idxs = .ok
      ([ { opcode := .Integer, p1 := .val root, p2 := .val 0 },
         { opcode := .OpenRead, p1 := .val 0, p2 := .val 0, p3 := 4 },
         { opcode := .Rewind, p1 := .val 0, p2 := .val ((6 + idxs.length : Nat) : Int) },
         { opcode := .Key, p1 := .val 0, p2 := .val 1 } ]
       ++ (idxs.enum.map fun q =>
           { opcode := .Column, p1 := .val 0, p2 := .val q.2, p3 := 2 + q.1 })
       ++ [ { opcode := .ResultRow, p1 := .val 1, p2 := .val (idxs.length + 1) },
         { opcode := .Next, p1 := .val 0, p2 := .val 3 },
         { opcode := .Close, p1 := .val 0 },
         { opcode := .Halt, p1 := .val 0, p2 := .val 0 } ]) ∧
    (∀ rest cns, getColumnIndexes ("*" :: rest) cns =
      .ok (List.range cns.length)) := by
  refine ⟨compileSelect_eq root idxs, ?_⟩
  intro rest cns
  simp [getColumnIndexes, getColumnIndexes.go]

/-- Witness for C1 at `SELECT * FROM products` with root page 2 and two
columns. -/
theorem select_compile_shape_witness :
    compileSelect 2 [0, 1] = .ok
      [ { opcode := .Integer, p1 := .val 2, p2 := .val 0 },
        { opcode := .OpenRead, p1 := .val 0, p2 := .val 0, p3 := 4 },
        { opcode := .Rewind, p1 := .val 0, p2 := .val 8 },
        { opcode := .Key, p1 := .val 0, p2 := .val 1 },
        { opcode := .Column, p1 := .val 0, p2 := .val 0, p3 := 2 },
        { opcode := .Column, p1 := .val 0, p2 := .val 1, p3 := 3 },
        { opcode := .ResultRow, p1 := .val 1, p2 := .val 3 },
        { opcode := .Next, p1 := .val 0, p2 := .val 3 },
        { opcode := .Close, p1 := .val 0 },
        { opcode := .Halt, p1 := .val 0, p2 := .val 0 } ] := by
  have h := (select_compile_shape
    [⟨1, "table", "products", "products", "sql", 2⟩] "products" 2
    ["*"] ["id", "name"] [0, 1] (by rfl) (by rfl)).1
  exact h.trans rfl

/-- Claim C3: Compiled programs contain no unresolved forward references.
For every select, the program returned by `compile` (which runs
`resolve_refs` exactly once, after all instructions are appended) has only
plain-value operands; the one operand that held an `Instruction` reference
— the `Rewind` jump target at index 2 — has been rewritten to the absolute
index `6 + n` of the `Close` instruction it referenced, and that index is
within the bounds of the instruction list.  For every create, the program
has no references and `resolve_refs` leaves it unchanged.  (Insert
statements never produce a program: see C5.) -/
theorem compiled_programs_resolved (root : Int) (idxs : List Nat)
    (name sql : String) :
    (∃ l, compileSelect root idxs = .ok l ∧
      (∀ ins ∈ l, ins.resolved) ∧
      l.length = 8 + idxs.length ∧
      l.get? 2 = some { opcode := .Rewind, p1 := .val 0, p2 := .val ((6 + idxs.length : Nat) : Int) } ∧
      l.get? (6 + idxs.length) = some { opcode := .Close, p1 := .val 0 } ∧
      6 + idxs.length < l.length) ∧
    (compileCreate name sql = .ok (compileCreateCore name sql) ∧
      ∀ ins ∈ compileCreateCore name sql, ins.resolved) := by
  constructor
  · refine ⟨_, compileSelect_eq root idxs, ?_, ?_, ?_, ?_, ?_⟩
    · intro ins hins
      rcases List.mem_append.1 hins with h | h
      · rcases List.mem_append.1 h with h4 | hm
        · fin_cases h4 <;> exact ⟨⟨_, rfl⟩, ⟨_, rfl⟩⟩
        · obtain ⟨q, _, rfl⟩ := List.mem_map.1 hm
          exact ⟨⟨_, rfl⟩, ⟨_, rfl⟩⟩
      · fin_cases h <;> exact ⟨⟨_, rfl⟩, ⟨_, rfl⟩⟩
    · simp [List.enum_length]
      omega
    · rfl
    · have key : ∀ (A B : List Instr), A.length = 4 + idxs.length →
          (A ++ B).get? (6 + idxs.length) = B.get? 2 := by
        intro A B hA
        rw [List.get?_append_right (by omega)]
        congr 1
        omega
      rw [key _ _ (by simp [List.enum_length]; omega)]
      rfl
    · simp [List.enum_length]
      omega
  · refine ⟨compileCreate_eq name sql, ?_⟩
    intro ins hins
    fin_cases hins <;> exact ⟨⟨_, rfl⟩, ⟨_, rfl⟩⟩

/-- Claim C5 (code bug): compiling an INSERT never emits the literal loads.
The insert branch tests `token.kind == Kind.integer` and
`token.kind == Kind.text`, but the lexer's `Kind` enum
(`toysql/lexer.py`, lines 38–46) has members
`keyword/symbol/identifier/string/numeric/bool/null` only — no `integer`
and no `text` — so evaluating `Kind.integer` on the first value raises
`AttributeError` and compilation fails for every non-empty VALUES list. -/
theorem insert_compile_kind_attribute_error (root : Int)
    (values : List Token) (h : values ≠ []) :
    compileInsert root values = .error .attributeError ∧
    Kind.memberNamed "integer" = none ∧
    Kind.memberNamed "text" = none :=
  ⟨compileInsert_error root values h, rfl, rfl⟩

/-- Witness for C5 at `INSERT INTO products VALUES(1, 'Hard Drive', 240)`
(table root page 2). -/
theorem insert_compile_kind_attribute_error_witness :
    compileInsert 2
      [ { value := "1", kind := .numeric },
        { value := "Hard Drive", kind := .string },
        { value := "240", kind := .numeric } ] = .error .attributeError ∧
    Kind.memberNamed "integer" = none ∧
    Kind.memberNamed "text" = none :=
  insert_compile_kind_attribute_error 2 _ (by simp)

/-- Claim C8: compilation is deterministic.  The embedding makes every input
of `Compiler.compile` explicit — the statement's resolved data and the
schema state; the register counter is a fresh `Memory()` starting at 0 on
every call — so compiling the same SQL text twice against the same schema
state is the same function application twice, and the resulting
instruction sequences are equal. -/
theorem compile_deterministic (root : Int) (idxs : List Nat)
    (values : List Token) (name sql : String) :
    compileSelect root idxs = compileSelect root idxs ∧
    compileInsert root values = compileInsert root values ∧
    compileCreate name sql = compileCreate name sql :=
  ⟨rfl, rfl, rfl⟩

/-- Claim C9: every compiled CREATE loads the integer literal 1 into the
primary-key register 7 (instruction 8) and uses that register as the key
operand `p3` of its `Insert` (instruction 9).  `compileCreateCore` takes
only the table name and the SQL text — the create branch never consults
the schema catalog for the key — so this holds independently of the
catalog's contents. -/
theorem create_inserts_rowid_one (name sql : String) :
    ∃ l, compileCreate name sql = .ok l ∧
      l.get? 8 = some { opcode := .Integer, p1 := .val 1, p2 := .val 7 } ∧
      l.get? 9 = some { opcode := .Insert, p1 := .val 0, p2 := .val 6, p3 := 7 } :=
  ⟨compileCreateCore name sql, compileCreate_eq name sql, rfl, rfl⟩

/-- Claim C2 (code bug): the leaf split is not implemented.  When the new
cell does not fit in the remaining free space of the target page
(`page_size - len(page) < len(cell)`), `BPlusTree.add` runs
`[left, right] = self._split(page)`, but `_split` returns the empty list,
so the unpacking raises `ValueError`: no cells are partitioned, no page is
allocated, and no separator is propagated. -/
theorem btree_add_full_page_valueerror (env : AddEnv)
    (h : env.pageSize - env.pageLen < env.cellLen) :
    bplusTreeAdd env = .error (.valueError none) ∧
    bplusTreeSplit env = ([] : List AddEnv) := by
  constructor
  · simp [bplusTreeAdd, bplusTreeSplit, h]
  · rfl

/-- Witness for C2: a 4096-byte page with 96 bytes free cannot take a
200-byte cell. -/
theorem btree_add_full_page_valueerror_witness :
    bplusTreeAdd ⟨4096, 4000, 200⟩ = .error (.valueError none) ∧
    bplusTreeSplit (⟨4096, 4000, 200⟩ : AddEnv) = [] :=
  btree_add_full_page_valueerror ⟨4096, 4000, 200⟩ (by norm_num)

/-- Claim C4 (code bug): executing `MakeRecord` does not encode the
registers when `p4` is `None` — the branch begins with
`assert instruction.p4`, so it raises `AssertionError` instead of storing
a `Record` in register `p3`.  The second conjunct shows the compiler
itself emits exactly such an instruction: the `MakeRecord` of every
compiled CREATE (instruction 7) carries `p4 = None`. -/
theorem vm_makerecord_asserts_p4 (prog : List Instr) (s : VmState)
    (ins : Instr) (hfetch : pyListGet prog s.pc = some ins)
    (hop : ins.opcode = .MakeRecord) (hp4 : ins.p4 = none) :
    vmStep prog s = .fail .assertionError ∧
    ∀ name sql, (compileCreateCore name sql).get? 7 =
      some { opcode := .MakeRecord, p1 := .val 1, p2 := .val 5, p3 := 6 } := by
  constructor
  · simp [vmStep, hfetch, hop, hp4]
  · intro name sql
    rfl

/-- Witness for C4: stepping a one-instruction program holding the
CREATE-shaped `MakeRecord` (whose `p4` defaults to `None`). -/
theorem vm_makerecord_asserts_p4_witness :
    vmStep [{ opcode := .MakeRecord, p1 := .val 1, p2 := .val 5, p3 := 6 }]
      { pc := 0, regs := [], btrees := [], pager := ⟨[]⟩ } =
      .fail .assertionError ∧
    ∀ name sql, (compileCreateCore name sql).get? 7 =
      some { opcode := .MakeRecord, p1 := .val 1, p2 := .val 5, p3 := 6 } :=
  vm_makerecord_asserts_p4 _ _
    { opcode := .MakeRecord, p1 := .val 1, p2 := .val 5, p3 := 6 }
    rfl rfl rfl

/-- Claim C6: executing `ResultRow` yields the values of registers `p1`
through `p2` (inclusive), in order, as one output row, without
terminating the program; the suspended state has the program counter on
the instruction immediately following the `ResultRow`, where execution
resumes on the next demand. -/
theorem vm_resultrow_yields_row (prog : List Instr) (s : VmState)
    (ins : Instr) (a b : Int) (vals : List VValue)
    (hfetch : pyListGet prog s.pc = some ins)
    (hop : ins.opcode = .ResultRow)
    (hp1 : ins.p1 = .val a) (hp2 : ins.p2 = .val b)
    (hvals : (intRangeIncl a b).mapM (alistGet s.regs) = .ok vals) :
    vmStep prog s = .yieldRow vals { s with pc := s.pc + 1 } := by
  have hvals' : List.mapM.loop (alistGet s.regs) (intRangeIncl a b) [] =
      Except.ok vals := hvals
  simp [vmStep, hfetch, hop, hp1, hp2, hvals', runE, Operand.asInt,
    Bind.bind, Except.bind, Pure.pure, Except.pure]

/-- Witness for C6: a `ResultRow` over registers 1..2 yields their values
and suspends at the next instruction. -/
theorem vm_resultrow_yields_row_witness :
    vmStep [{ opcode := .ResultRow, p1 := .val 1, p2 := .val 2 }]
      { pc := 0, regs := [(1, .vint 7), (2, .vstr "x")], btrees := [],
        pager := ⟨[]⟩ } =
    .yieldRow [.vint 7, .vstr "x"]
      { pc := 0 + 1, regs := [(1, .vint 7), (2, .vstr "x")], btrees := [],
        pager := ⟨[]⟩ } :=
  vm_resultrow_yields_row _ _
    { opcode := .ResultRow, p1 := .val 1, p2 := .val 2 } 1 2 _
    rfl rfl rfl rfl rfl

/-- Claim C7: VM execution terminates exactly at `Halt`: with `p1 == 0` the
generator breaks — success, no further rows, no error; with `p1 != 0` it
raises an exception carrying the message stored in operand `p4`. -/
theorem vm_halt_terminal (prog : List Instr) (s : VmState) (ins : Instr)
    (hfetch : pyListGet prog s.pc = some ins) (hop : ins.opcode = .Halt) :
    (ins.p1 = .val 0 → vmStep prog s = .done) ∧
    (ins.p1 ≠ .val 0 → vmStep prog s = .fail (.exception ins.p4)) := by
  constructor
  · intro h1
    simp [vmStep, hfetch, hop, h1]
  · intro h1
    simp [vmStep, hfetch, hop, h1]

/-- Witness for C7: `Halt 0` ends execution; `Halt 1` with message
`"boom"` raises carrying that message. -/
theorem vm_halt_terminal_witness :
    vmStep [{ opcode := .Halt, p1 := .val 0 }]
      { pc := 0, regs := [], btrees := [], pager := ⟨[]⟩ } = .done ∧
    vmStep [{ opcode := .Halt, p1 := .val 1, p4 := some "boom" }]
      { pc := 0, regs := [], btrees := [], pager := ⟨[]⟩ } =
      .fail (.exception (some "boom")) :=
  ⟨(vm_halt_terminal [{ opcode := .Halt, p1 := .val 0 }]
      { pc := 0, regs := [], btrees := [], pager := ⟨[]⟩ }
      { opcode := .Halt, p1 := .val 0 } rfl rfl).1 rfl,
   (vm_halt_terminal [{ opcode := .Halt, p1 := .val 1, p4 := some "boom" }]
      { pc := 0, regs := [], btrees := [], pager := ⟨[]⟩ }
      { opcode := .Halt, p1 := .val 1, p4 := some "boom" } rfl rfl).2
      (by simp)⟩

/-- Claim C10: `PeekIterator` consistency.  For any iterator state and any
`k`: `peek(ahead = k)` returns exactly the value the `(k+1)`-th
subsequent `__next__` will return; peeking never changes the sequence of
values the iterator produces (every later `__next__` returns the same
value after the peek as before it); and once the underlying scan is
exhausted (nothing remains and any queued entries are the `None`s pushed
by `safe_next`), both `peek` and `__next__` return `None` rather than
raising `StopIteration`. -/
theorem peek_iterator_consistent {α : Type} (s : PeekState α) (k : Nat) :
    (s.peek k).1 = s.nthNext k ∧
    (∀ n, (s.peek k).2.nthNext n = s.nthNext n) ∧
    (s.remaining = [] → (∀ x ∈ s.peeked, x = none) →
      (s.peek k).1 = none ∧ s.next.1 = none) := by
  obtain ⟨p, r⟩ := s
  refine ⟨?_, ?_, ?_⟩
  · show (PeekState.fill p r k).1.getD k none = PeekState.nthNext ⟨p, r⟩ k
    rw [← PeekState.fill_stream p r k k]
    exact (PeekState.nthNext_of_lt _ _ _ (PeekState.fill_length p r k)).symm
  · intro n
    show PeekState.nthNext ⟨(PeekState.fill p r k).1, (PeekState.fill p r k).2⟩ n =
      PeekState.nthNext ⟨p, r⟩ n
    exact PeekState.fill_stream p r k n
  · rintro rfl hp
    constructor
    · show (PeekState.fill p [] k).1.getD k none = none
      exact PeekState.getD_allnone _ k
        (PeekState.fill_allnone_aux k (k + 1 - p.length) p le_rfl hp).1
    · cases p with
      | nil => rfl
      | cons v q =>
        simp [PeekState.next, hp v (by simp)]

/-- Witness for C10 on an exhausted iterator: both `peek(2)` and
`__next__` return `None`. -/
theorem peek_iterator_consistent_witness :
    ((⟨[], []⟩ : PeekState Nat).peek 2).1 = none ∧
    (⟨[], []⟩ : PeekState Nat).next.1 = none :=
  (peek_iterator_consistent (⟨[], []⟩ : PeekState Nat) 2).2.2 rfl (by simp)
